import Mathlib

/-!
Verification of the distributed advisory lock subsystem
(src/backend/src/services/file_lock.py, class FileLockManager).

The manager talks to a shared redis store.  We embed the store as a map
from keys to entries carrying a value and an absolute expiry instant,
together with the store clock (redis enforces TTL itself) and an
availability flag (a connection failure makes every redis call raise,
which the python methods do not catch, so it propagates to the caller;
we model that with an Except result).

Each redis round trip used by the source is one atomic step:
  - SET key value NX EX ttl        (acquire_lock)
  - EVAL of the release Lua script (release_lock: get, compare, del)
  - EVAL of the extend Lua script  (extend_lock: get, compare, expire)
  - GET key                        (get_lock_owner)
-/

namespace FileLock

/-- An entry stored in redis under a key: the stored byte string and the
absolute instant at which it expires (set as now + ttl at write time). -/
structure RedisEntry where
  value : String
  expiresAt : Int
deriving DecidableEq, Repr

/-- The shared redis store: whether the connection is up, the store clock,
and the key space. -/
structure RedisStore where
  available : Bool
  now : Int
  data : String → Option RedisEntry

/-- The failure a redis client raises when the store cannot be reached;
the python methods do not catch it, so it propagates to their caller. -/
inductive StoreErr where
  | unavailable
deriving DecidableEq, Repr

/-- A key observed through redis: an entry is visible only while unexpired
(redis removes expired keys; every read primitive treats them as absent). -/
def RedisStore.liveEntry (s : RedisStore) (key : String) : Option RedisEntry :=
  match s.data key with
  | some e => if s.now < e.expiresAt then some e else none
  | none => none

/-- Point update of the key space; clock and availability are untouched. -/
def RedisStore.write (s : RedisStore) (key : String) (e : Option RedisEntry) :
    RedisStore :=
  ⟨s.available, s.now, fun k => if k = key then e else s.data k⟩

/-- redis SET key value NX EX ttl: write only if no live entry exists under
the key, with expiry ttl; returns whether the write happened (the python
client returns True or None, which acquire_lock passes through bool). -/
def redisSetNxEx (s : RedisStore) (key value : String) (ttl : Int) :
    Except StoreErr (Bool × RedisStore) :=
  if s.available then
    match s.liveEntry key with
    | some _ => .ok (false, s)
    | none => .ok (true, s.write key (some ⟨value, s.now + ttl⟩))
  else .error .unavailable

/-- redis GET key: the stored value when live, otherwise a nil reply. -/
def redisGet (s : RedisStore) (key : String) : Except StoreErr (Option String) :=
  if s.available then .ok ((s.liveEntry key).map RedisEntry.value)
  else .error .unavailable

/-- The Lua script EVALed by release_lock, one atomic store step:
if redis.call("get", KEYS[1]) == ARGV[1] then return redis.call("del", KEYS[1])
else return 0 end.  A nil reply never equals ARGV[1], and del on the key the
get just saw returns 1. -/
def evalReleaseScript (s : RedisStore) (key argv : String) :
    Except StoreErr (Int × RedisStore) :=
  if s.available then
    match s.liveEntry key with
    | some e =>
      if e.value = argv then .ok (1, s.write key none) else .ok (0, s)
    | none => .ok (0, s)
  else .error .unavailable

/-- The Lua script EVALed by extend_lock, one atomic store step:
if redis.call("get", KEYS[1]) == ARGV[1] then
return redis.call("expire", KEYS[1], ARGV[2]) else return 0 end.
expire on the key the get just saw resets its expiry to now + ttl and
returns 1. -/
def evalExtendScript (s : RedisStore) (key argv : String) (ttl : Int) :
    Except StoreErr (Int × RedisStore) :=
  if s.available then
    match s.liveEntry key with
    | some e =>
      if e.value = argv then
        .ok (1, s.write key (some ⟨e.value, s.now + ttl⟩))
      else .ok (0, s)
    | none => .ok (0, s)
  else .error .unavailable

/-- class FileLockManager: its only state is the redis handle (passed
explicitly here) and self.lock_ttl, set to 60 in the constructor. -/
structure FileLockManager where
  lock_ttl : Int

/-- FileLockManager.__init__ sets self.lock_ttl = 60. -/
def mkFileLockManager : FileLockManager := ⟨60⟩

/-- lock_key built by every method: "file_lock:" followed by file_path. -/
def lockKey (file_path : String) : String := "file_lock:" ++ file_path

/-- acquire_lock(file_path, user_id): bool(redis.set(lock_key, user_id,
nx, ex self.lock_ttl)). -/
def FileLockManager.acquire_lock (m : FileLockManager) (s : RedisStore)
    (file_path user_id : String) : Except StoreErr (Bool × RedisStore) :=
  redisSetNxEx s (lockKey file_path) user_id m.lock_ttl

/-- release_lock(file_path, user_id): EVAL the release script with
KEYS[1] = lock_key, ARGV[1] = user_id; return result == 1. -/
def FileLockManager.release_lock (_m : FileLockManager) (s : RedisStore)
    (file_path user_id : String) : Except StoreErr (Bool × RedisStore) :=
  match evalReleaseScript s (lockKey file_path) user_id with
  | .ok (r, s1) => .ok (r == 1, s1)
  | .error e => .error e

/-- extend_lock(file_path, user_id, ttl = 60): EVAL the extend script with
KEYS[1] = lock_key, ARGV[1] = user_id, ARGV[2] = ttl; return result == 1. -/
def FileLockManager.extend_lock (_m : FileLockManager) (s : RedisStore)
    (file_path user_id : String) (ttl : Int) :
    Except StoreErr (Bool × RedisStore) :=
  match evalExtendScript s (lockKey file_path) user_id ttl with
  | .ok (r, s1) => .ok (r == 1, s1)
  | .error e => .error e

/-- get_lock_owner(file_path): owner = redis.get(lock_key); then
owner.decode() if owner else None.  An empty byte string is falsy in
python, so a stored empty value also yields None. -/
def FileLockManager.get_lock_owner (_m : FileLockManager) (s : RedisStore)
    (file_path : String) : Except StoreErr (Option String) :=
  match redisGet s (lockKey file_path) with
  | .ok owner =>
    .ok (match owner with
         | some v => if v = "" then none else some v
         | none => none)
  | .error e => .error e

/-- The live owner the store records for a resource: the value of the live
entry under its lock key, if any. -/
def ownerOf (s : RedisStore) (file_path : String) : Option String :=
  (s.liveEntry (lockKey file_path)).map RedisEntry.value

/-! Concrete stores used to exercise the theorems on closed inputs. -/

/-- A reachable store holding no keys, clock at 0. -/
def emptyStore : RedisStore := ⟨true, 0, fun _ => none⟩

/-- A reachable store where owner "A" holds "doc/1.md" until instant 60. -/
def heldStore : RedisStore :=
  ⟨true, 0, fun k => if k = lockKey "doc/1.md" then some ⟨"A", 60⟩ else none⟩

/-- An unreachable store (every redis call raises). -/
def downStore : RedisStore := ⟨false, 0, fun _ => none⟩

/-- A reachable store where the entry for "f" holds the empty string. -/
def emptyOwnerStore : RedisStore :=
  ⟨true, 0, fun k => if k = lockKey "f" then some ⟨"", 10⟩ else none⟩

/-! Basic facts about the store and the key mapping. -/

theorem RedisStore.write_available (s : RedisStore) (key : String)
    (e : Option RedisEntry) : (s.write key e).available = s.available := rfl

theorem RedisStore.write_now (s : RedisStore) (key : String)
    (e : Option RedisEntry) : (s.write key e).now = s.now := rfl

theorem RedisStore.write_data_self (s : RedisStore) (key : String)
    (e : Option RedisEntry) : (s.write key e).data key = e := by
  simp [RedisStore.write]

theorem RedisStore.write_data_other (s : RedisStore) (key k : String)
    (e : Option RedisEntry) (h : k ≠ key) : (s.write key e).data k = s.data k := by
  simp [RedisStore.write, h]

/-- The key mapping is injective: distinct resources use distinct keys. -/
theorem lockKey_inj (a b : String) (h : lockKey a = lockKey b) : a = b := by
  have hd : ("file_lock:" ++ a).data = ("file_lock:" ++ b).data :=
    congrArg String.data h
  rw [String.data_append, String.data_append] at hd
  have : a.data = b.data := List.append_cancel_left hd
  cases a; cases b; exact congrArg String.mk this

theorem liveEntry_write_self (s : RedisStore) (key : String)
    (e : Option RedisEntry) :
    (s.write key e).liveEntry key =
      match e with
      | some en => if s.now < en.expiresAt then some en else none
      | none => none := by
  simp [RedisStore.liveEntry, RedisStore.write]

theorem liveEntry_write_other (s : RedisStore) (key k : String)
    (e : Option RedisEntry) (h : k ≠ key) :
    (s.write key e).liveEntry k = s.liveEntry k := by
  simp [RedisStore.liveEntry, RedisStore.write, h]

/-- ownerOf after writing an entry under the same resource's key. -/
theorem ownerOf_write_some (s : RedisStore) (r : String) (en : RedisEntry) :
    ownerOf (s.write (lockKey r) (some en)) r =
      if s.now < en.expiresAt then some en.value else none := by
  unfold ownerOf
  rw [liveEntry_write_self]
  by_cases h : s.now < en.expiresAt <;> simp [h]

/-- ownerOf after deleting the same resource's key. -/
theorem ownerOf_write_none (s : RedisStore) (r : String) :
    ownerOf (s.write (lockKey r) none) r = none := by
  unfold ownerOf
  rw [liveEntry_write_self]
  rfl

/-- ownerOf of a different resource is untouched by a write. -/
theorem ownerOf_write_other (s : RedisStore) (r r' : String)
    (e : Option RedisEntry) (h : r' ≠ r) :
    ownerOf (s.write (lockKey r) e) r' = ownerOf s r' := by
  unfold ownerOf
  rw [liveEntry_write_other]
  intro hk
  exact h (lockKey_inj _ _ hk)

/-! Characterization of the four methods on a reachable store. -/

/-- acquire_lock behaves as create-if-absent with expiry lock_ttl. -/
theorem acquire_lock_spec (m : FileLockManager) (s : RedisStore) (r u : String)
    (h : s.available = true) :
    m.acquire_lock s r u =
      if ownerOf s r = none then
        .ok (true, s.write (lockKey r) (some ⟨u, s.now + m.lock_ttl⟩))
      else .ok (false, s) := by
  unfold FileLockManager.acquire_lock redisSetNxEx ownerOf
  rw [h]
  cases hl : s.liveEntry (lockKey r) <;> simp [hl]

/-- release_lock deletes the key and returns true exactly when the live
value equals user_id; otherwise it returns false and changes nothing. -/
theorem release_lock_spec (m : FileLockManager) (s : RedisStore) (r u : String)
    (h : s.available = true) :
    m.release_lock s r u =
      if ownerOf s r = some u then .ok (true, s.write (lockKey r) none)
      else .ok (false, s) := by
  unfold FileLockManager.release_lock evalReleaseScript ownerOf
  rw [h]
  cases hl : s.liveEntry (lockKey r) with
  | none => simp [hl]
  | some e =>
    by_cases hv : e.value = u <;> simp [hl, hv]

/-- extend_lock resets the expiry to now + ttl and returns true exactly
when the live value equals user_id; otherwise it returns false and
changes nothing. -/
theorem extend_lock_spec (m : FileLockManager) (s : RedisStore) (r u : String)
    (ttl : Int) (h : s.available = true) :
    m.extend_lock s r u ttl =
      if ownerOf s r = some u then
        .ok (true, s.write (lockKey r) (some ⟨u, s.now + ttl⟩))
      else .ok (false, s) := by
  unfold FileLockManager.extend_lock evalExtendScript ownerOf
  rw [h]
  cases hl : s.liveEntry (lockKey r) with
  | none => simp [hl]
  | some e =>
    by_cases hv : e.value = u <;> simp [hl, hv]

/-- get_lock_owner reads the live value and maps an empty one to none. -/
theorem get_lock_owner_spec (m : FileLockManager) (s : RedisStore) (r : String)
    (h : s.available = true) :
    m.get_lock_owner s r =
      .ok (match ownerOf s r with
           | some v => if v = "" then none else some v
           | none => none) := by
  unfold FileLockManager.get_lock_owner redisGet ownerOf
  rw [h]
  cases hl : s.liveEntry (lockKey r) <;> simp [hl]

/-! Behaviour when the store is unreachable: every method propagates the
raised error, no ordinary boolean or owner reply is produced. -/

theorem acquire_lock_down (m : FileLockManager) (s : RedisStore) (r u : String)
    (h : s.available = false) : m.acquire_lock s r u = .error .unavailable := by
  unfold FileLockManager.acquire_lock redisSetNxEx
  rw [h]; rfl

theorem release_lock_down (m : FileLockManager) (s : RedisStore) (r u : String)
    (h : s.available = false) : m.release_lock s r u = .error .unavailable := by
  unfold FileLockManager.release_lock evalReleaseScript
  rw [h]; rfl

theorem extend_lock_down (m : FileLockManager) (s : RedisStore) (r u : String)
    (ttl : Int) (h : s.available = false) :
    m.extend_lock s r u ttl = .error .unavailable := by
  unfold FileLockManager.extend_lock evalExtendScript
  rw [h]; rfl

theorem get_lock_owner_down (m : FileLockManager) (s : RedisStore) (r : String)
    (h : s.available = false) : m.get_lock_owner s r = .error .unavailable := by
  unfold FileLockManager.get_lock_owner redisGet
  rw [h]; rfl

/-! A burst of acquire calls on one resource, serialized by the store (the
store primitive is linearizable per key, so any concurrent burst is
observed as some sequence). -/

/-- Run acquire_lock once per caller in us, threading the store; collects
each result.  A raised error aborts the run (never reached on a
reachable store, whose writes keep it reachable). -/
def runAcquires (m : FileLockManager) (s : RedisStore) (r : String) :
    List String → List Bool × RedisStore
  | [] => ([], s)
  | u :: us =>
    match m.acquire_lock s r u with
    | .ok (b, s1) =>
      let rest := runAcquires m s1 r us
      (b :: rest.1, rest.2)
    | .error _ => ([], s)

/-- While some owner holds the resource, every acquire in a burst fails
and the store never changes. -/
theorem runAcquires_held (m : FileLockManager) (s : RedisStore) (r o : String)
    (us : List String) (h : s.available = true) (ho : ownerOf s r = some o) :
    runAcquires m s r us = (List.replicate us.length false, s) := by
  induction us with
  | nil => rfl
  | cons u us ih =>
    unfold runAcquires
    rw [acquire_lock_spec m s r u h]
    simp only [ho]
    simp [ih, List.replicate_succ]

/-!  The claim theorems. -/

/-- C2: acquire_lock performs an atomic create-if-absent write of user_id
under the resource key with expiry lock_ttl and returns true iff no live
entry existed; in particular a holder that calls acquire again while its
entry is live receives false (acquisition is not idempotent). -/
theorem C2_acquire_create_if_absent (m : FileLockManager) (s : RedisStore)
    (r u : String) (h : s.available = true) :
    (ownerOf s r = none →
      m.acquire_lock s r u =
        .ok (true, s.write (lockKey r) (some ⟨u, s.now + m.lock_ttl⟩)))
    ∧ (∀ o, ownerOf s r = some o → m.acquire_lock s r u = .ok (false, s))
    ∧ (ownerOf s r = some u → m.acquire_lock s r u = .ok (false, s)) := by
  have hspec := acquire_lock_spec m s r u h
  refine ⟨fun ho => ?_, fun o ho => ?_, fun ho => ?_⟩ <;>
    rw [hspec] <;> simp [ho]

theorem C2_witness :
    heldStore.available = true ∧
      mkFileLockManager.acquire_lock heldStore "doc/1.md" "A" =
        .ok (false, heldStore) :=
  ⟨rfl, (C2_acquire_create_if_absent mkFileLockManager heldStore
      "doc/1.md" "A" rfl).2.2 rfl⟩

/-- C3: release_lock runs one atomic read-compare-delete script; it deletes
the entry and returns true iff the current live owner equals user_id, and
on an absent entry or a different owner it returns false without an error
and without modifying the store. -/
theorem C3_release_compare_delete (m : FileLockManager) (s : RedisStore)
    (r u : String) (h : s.available = true) :
    (ownerOf s r = some u →
      m.release_lock s r u = .ok (true, s.write (lockKey r) none)
      ∧ ownerOf (s.write (lockKey r) none) r = none)
    ∧ (ownerOf s r ≠ some u → m.release_lock s r u = .ok (false, s)) := by
  have hspec := release_lock_spec m s r u h
  constructor
  · intro ho
    rw [hspec, if_pos ho]
    refine ⟨rfl, ?_⟩
    rw [ownerOf_write_none]
  · intro ho
    rw [hspec, if_neg ho]

theorem C3_witness :
    heldStore.available = true ∧
      mkFileLockManager.release_lock heldStore "doc/1.md" "B" =
        .ok (false, heldStore) :=
  ⟨rfl, (C3_release_compare_delete mkFileLockManager heldStore
      "doc/1.md" "B" rfl).2 (by decide)⟩

/-- C4: extend_lock resets the expiry to now + ttl only when the live
owner equals user_id; on any mismatch (absent, expired or another owner)
it returns false and leaves the whole store, hence the existing entry,
its owner and its expiry, unchanged. -/
theorem C4_extend_only_owner (m : FileLockManager) (s : RedisStore)
    (r u : String) (ttl : Int) (h : s.available = true) :
    (ownerOf s r = some u →
      m.extend_lock s r u ttl =
        .ok (true, s.write (lockKey r) (some ⟨u, s.now + ttl⟩)))
    ∧ (ownerOf s r ≠ some u → m.extend_lock s r u ttl = .ok (false, s)) := by
  have hspec := extend_lock_spec m s r u ttl h
  constructor
  · intro ho; rw [hspec, if_pos ho]
  · intro ho; rw [hspec, if_neg ho]

theorem C4_witness :
    heldStore.available = true ∧
      mkFileLockManager.extend_lock heldStore "doc/1.md" "B" 30 =
        .ok (false, heldStore) :=
  ⟨rfl, (C4_extend_only_owner mkFileLockManager heldStore
      "doc/1.md" "B" 30 rfl).2 (by decide)⟩

/-- C5: when the store is unreachable every method raises the store error
to its caller and never returns an ordinary boolean or owner answer. -/
theorem C5_unavailable_propagates (m : FileLockManager) (s : RedisStore)
    (r u : String) (ttl : Int) (h : s.available = false) :
    m.acquire_lock s r u = .error .unavailable
    ∧ m.release_lock s r u = .error .unavailable
    ∧ m.extend_lock s r u ttl = .error .unavailable
    ∧ m.get_lock_owner s r = .error .unavailable :=
  ⟨acquire_lock_down m s r u h, release_lock_down m s r u h,
   extend_lock_down m s r u ttl h, get_lock_owner_down m s r h⟩

theorem C5_witness :
    downStore.available = false
    ∧ mkFileLockManager.acquire_lock downStore "d" "u" = .error .unavailable
    ∧ mkFileLockManager.release_lock downStore "d" "u" = .error .unavailable
    ∧ mkFileLockManager.extend_lock downStore "d" "u" 60 = .error .unavailable
    ∧ mkFileLockManager.get_lock_owner downStore "d" = .error .unavailable := by
  refine ⟨rfl, ?_⟩
  exact C5_unavailable_propagates mkFileLockManager downStore "d" "u" 60 rfl

/-- C1: at most one owner is associated with a resource at any
store-observed instant.  In any serialized burst of acquire calls on a
resource with no live entry, exactly the first returns true and all
others return false; an acquire can return true only when no live owner
exists; and no acquire, release or extend issued by a different caller
while an owner holds the resource succeeds or changes the store, so no
interleaving produces a double grant. -/
theorem C1_mutual_exclusion (m : FileLockManager) (s : RedisStore)
    (r : String) (h : s.available = true) :
    (∀ us : List String, us ≠ [] → ownerOf s r = none → 0 < m.lock_ttl →
      (runAcquires m s r us).1 =
        true :: List.replicate (us.length - 1) false)
    ∧ (∀ u b s1, m.acquire_lock s r u = .ok (b, s1) → b = true →
        ownerOf s r = none)
    ∧ (∀ o u, ownerOf s r = some o → u ≠ o →
        m.acquire_lock s r u = .ok (false, s)
        ∧ m.release_lock s r u = .ok (false, s)
        ∧ ∀ ttl, m.extend_lock s r u ttl = .ok (false, s)) := by
  refine ⟨?_, ?_, ?_⟩
  · intro us hne ho httl
    match us with
    | [] => exact absurd rfl hne
    | u :: us2 =>
      have hacq : m.acquire_lock s r u =
          .ok (true, s.write (lockKey r) (some ⟨u, s.now + m.lock_ttl⟩)) := by
        rw [acquire_lock_spec m s r u h, if_pos ho]
      have h1 : (s.write (lockKey r) (some ⟨u, s.now + m.lock_ttl⟩)).available
          = true := h
      have ho1 : ownerOf (s.write (lockKey r) (some ⟨u, s.now + m.lock_ttl⟩)) r
          = some u := by
        rw [ownerOf_write_some,
          if_pos (show s.now < s.now + m.lock_ttl by omega)]
      unfold runAcquires
      rw [hacq]
      simp [runAcquires_held m _ r u us2 h1 ho1, List.replicate_succ]
  · intro u b s1 hacq hb
    subst hb
    rw [acquire_lock_spec m s r u h] at hacq
    by_cases ho : ownerOf s r = none
    · exact ho
    · rw [if_neg ho] at hacq
      simp at hacq
  · intro o u ho hu
    have hne : ownerOf s r ≠ some u := by
      rw [ho]; intro hx; exact hu (Option.some.inj hx).symm
    refine ⟨?_, ?_, fun ttl => ?_⟩
    · rw [acquire_lock_spec m s r u h, if_neg (by rw [ho]; simp)]
    · rw [release_lock_spec m s r u h, if_neg hne]
    · rw [extend_lock_spec m s r u ttl h, if_neg hne]

theorem C1_witness :
    emptyStore.available = true
    ∧ (runAcquires mkFileLockManager emptyStore "d" ["A", "B", "C"]).1 =
        [true, false, false] := by
  refine ⟨rfl, ?_⟩
  have h := (C1_mutual_exclusion mkFileLockManager emptyStore "d" rfl).1
    ["A", "B", "C"] (by simp) rfl (by decide)
  simpa using h

/-- C6 counterexample: the code performs no input validation.  With an
empty file_path and an empty user_id (invalid per the claim) acquire_lock
still reaches the store, succeeds, and writes an entry, instead of being
rejected before any store operation with the store unchanged. -/
theorem C6_counterexample :
    mkFileLockManager.acquire_lock emptyStore "" "" =
      .ok (true, emptyStore.write (lockKey "") (some ⟨"", 60⟩))
    ∧ (emptyStore.write (lockKey "") (some ⟨"", 60⟩)).data (lockKey "") ≠
        emptyStore.data (lockKey "") := by
  refine ⟨rfl, ?_⟩
  rw [RedisStore.write_data_self]
  simp [emptyStore]

/-- C6 amended: the coordinator performs no input validation.  Empty
identifiers are passed through to the store, so acquire on a free
resource succeeds even with an empty file_path or user_id, and a
non-positive ttl is passed through to extend_lock, which then succeeds
for the owner while setting an expiry that is not in the future, ending
the lease at once. -/
theorem C6_no_validation (m : FileLockManager) (s : RedisStore)
    (r u : String) (ttl : Int) (h : s.available = true) :
    (ownerOf s r = none →
      m.acquire_lock s r "" =
        .ok (true, s.write (lockKey r) (some ⟨"", s.now + m.lock_ttl⟩)))
    ∧ (ownerOf s "" = none →
      m.acquire_lock s "" u =
        .ok (true, s.write (lockKey "") (some ⟨u, s.now + m.lock_ttl⟩)))
    ∧ (ttl ≤ 0 → ownerOf s r = some u →
      m.extend_lock s r u ttl =
        .ok (true, s.write (lockKey r) (some ⟨u, s.now + ttl⟩))
      ∧ ownerOf (s.write (lockKey r) (some ⟨u, s.now + ttl⟩)) r = none) := by
  refine ⟨?_, ?_, ?_⟩
  · intro ho
    rw [acquire_lock_spec m s r "" h, if_pos ho]
  · intro ho
    rw [acquire_lock_spec m s "" u h, if_pos ho]
  · intro httl ho
    constructor
    · rw [extend_lock_spec m s r u ttl h, if_pos ho]
    · rw [ownerOf_write_some,
        if_neg (show ¬s.now < s.now + ttl by omega)]

theorem C6_witness :
    heldStore.available = true
    ∧ mkFileLockManager.extend_lock heldStore "doc/1.md" "A" (-5) =
        .ok (true, heldStore.write (lockKey "doc/1.md") (some ⟨"A", -5⟩))
    ∧ ownerOf (heldStore.write (lockKey "doc/1.md") (some ⟨"A", -5⟩))
        "doc/1.md" = none := by
  refine ⟨rfl, ?_⟩
  have h := (C6_no_validation mkFileLockManager heldStore "doc/1.md" "A"
      (-5) rfl).2.2 (by decide) rfl
  simpa using h

/-- C7: after a successful release, get_lock_owner on the resource
returns none, an acquire by any caller succeeds, and releasing again
returns false with no error and the store unchanged. -/
theorem C7_release_then_free (m : FileLockManager) (s s1 : RedisStore)
    (r u : String) (h : s.available = true)
    (hr : m.release_lock s r u = .ok (true, s1)) :
    m.get_lock_owner s1 r = .ok none
    ∧ (∀ u2, m.acquire_lock s1 r u2 =
        .ok (true, s1.write (lockKey r) (some ⟨u2, s1.now + m.lock_ttl⟩)))
    ∧ m.release_lock s1 r u = .ok (false, s1) := by
  rw [release_lock_spec m s r u h] at hr
  by_cases ho : ownerOf s r = some u
  · rw [if_pos ho] at hr
    have hs1 : s1 = s.write (lockKey r) none := by
      cases hr; rfl
    subst hs1
    have h1 : (s.write (lockKey r) none).available = true := h
    have ho1 : ownerOf (s.write (lockKey r) none) r = none :=
      ownerOf_write_none s r
    refine ⟨?_, fun u2 => ?_, ?_⟩
    · rw [get_lock_owner_spec m _ r h1, ho1]
    · rw [acquire_lock_spec m _ r u2 h1, if_pos ho1]
    · rw [release_lock_spec m _ r u h1,
        if_neg (by rw [ho1]; exact fun hx => Option.noConfusion hx)]
  · rw [if_neg ho] at hr
    simp at hr

theorem C7_witness :
    heldStore.available = true
    ∧ mkFileLockManager.release_lock heldStore "doc/1.md" "A" =
        .ok (true, heldStore.write (lockKey "doc/1.md") none)
    ∧ mkFileLockManager.get_lock_owner
        (heldStore.write (lockKey "doc/1.md") none) "doc/1.md" = .ok none
    ∧ mkFileLockManager.release_lock
        (heldStore.write (lockKey "doc/1.md") none) "doc/1.md" "A" =
        .ok (false, heldStore.write (lockKey "doc/1.md") none) := by
  have h := C7_release_then_free mkFileLockManager heldStore
    (heldStore.write (lockKey "doc/1.md") none) "doc/1.md" "A" rfl rfl
  exact ⟨rfl, rfl, h.1, h.2.2⟩

/-- C8 counterexample: a live entry whose stored owner is the empty
string exists for "f", yet get_lock_owner returns none, because the
python truthiness test treats the empty byte string like an absent
reply.  The claim as stated (owner returned whenever a live entry
exists) is therefore false at this input. -/
theorem C8_counterexample :
    ownerOf emptyOwnerStore "f" = some ""
    ∧ mkFileLockManager.get_lock_owner emptyOwnerStore "f" = .ok none :=
  ⟨rfl, rfl⟩

/-- C8 amended: get_lock_owner is a pure read (it performs a single GET
and returns no store, so no entry of any resource is modified); it
returns the current owner when a live entry with a non-empty owner
exists, and none when the entry is absent, expired, or stores the empty
string. -/
theorem C8_get_owner_read (m : FileLockManager) (s : RedisStore)
    (r : String) (h : s.available = true) :
    (∀ v, ownerOf s r = some v → v ≠ "" →
      m.get_lock_owner s r = .ok (some v))
    ∧ (ownerOf s r = some "" → m.get_lock_owner s r = .ok none)
    ∧ (ownerOf s r = none → m.get_lock_owner s r = .ok none) := by
  have hspec := get_lock_owner_spec m s r h
  refine ⟨fun v hv hne => ?_, fun hv => ?_, fun hv => ?_⟩
  · rw [hspec, hv]; simp [hne]
  · rw [hspec, hv]; rfl
  · rw [hspec, hv]

theorem C8_witness :
    heldStore.available = true
    ∧ mkFileLockManager.get_lock_owner heldStore "doc/1.md" =
        .ok (some "A") :=
  ⟨rfl, (C8_get_owner_read mkFileLockManager heldStore "doc/1.md" rfl).1
    "A" rfl (by decide)⟩

/-- C9: acquiring with the empty string as user_id succeeds on a free
resource and stores a live entry whose value is the empty string;
get_lock_owner then reports none, yet release_lock and extend_lock with
the empty user_id still match the entry and return true. -/
theorem C9_empty_owner (m : FileLockManager) (s : RedisStore) (r : String)
    (h : s.available = true) (hfree : ownerOf s r = none)
    (httl : 0 < m.lock_ttl) :
    ∃ s1, m.acquire_lock s r "" = .ok (true, s1)
      ∧ ownerOf s1 r = some ""
      ∧ m.get_lock_owner s1 r = .ok none
      ∧ (∀ ttl, ∃ s2, m.extend_lock s1 r "" ttl = .ok (true, s2))
      ∧ (∃ s3, m.release_lock s1 r "" = .ok (true, s3)) := by
  have h1 : (s.write (lockKey r) (some ⟨"", s.now + m.lock_ttl⟩)).available
      = true := h
  have ho1 : ownerOf (s.write (lockKey r) (some ⟨"", s.now + m.lock_ttl⟩)) r
      = some "" := by
    rw [ownerOf_write_some,
      if_pos (show s.now < s.now + m.lock_ttl by omega)]
  refine ⟨s.write (lockKey r) (some ⟨"", s.now + m.lock_ttl⟩), ?_, ho1, ?_, ?_, ?_⟩
  · rw [acquire_lock_spec m s r "" h, if_pos hfree]
  · rw [get_lock_owner_spec m _ r h1, ho1]; rfl
  · intro ttl
    exact ⟨_, by rw [extend_lock_spec m _ r "" ttl h1, if_pos ho1]⟩
  · exact ⟨_, by rw [release_lock_spec m _ r "" h1, if_pos ho1]⟩

theorem C9_witness :
    emptyStore.available = true
    ∧ ownerOf emptyStore "f" = none
    ∧ 0 < mkFileLockManager.lock_ttl
    ∧ (∃ s1, mkFileLockManager.acquire_lock emptyStore "f" "" = .ok (true, s1)
        ∧ ownerOf s1 "f" = some ""
        ∧ mkFileLockManager.get_lock_owner s1 "f" = .ok none
        ∧ (∀ ttl, ∃ s2,
            mkFileLockManager.extend_lock s1 "f" "" ttl = .ok (true, s2))
        ∧ (∃ s3, mkFileLockManager.release_lock s1 "f" "" = .ok (true, s3))) :=
  ⟨rfl, rfl, by decide,
    C9_empty_owner mkFileLockManager emptyStore "f" rfl rfl (by decide)⟩

/-- C10: every method touches only the key "file_lock:" ++ file_path of
the resource it was called on; the mapping is injective, so for any
distinct resource the stored entry and its observed owner are unchanged
by acquire, release and extend (get_lock_owner returns no store at all
and writes nothing by construction). -/
theorem C10_key_isolation (m : FileLockManager) (s : RedisStore)
    (r r2 u : String) (h : s.available = true) (hne : r2 ≠ r) :
    lockKey r = "file_lock:" ++ r
    ∧ (∀ a b : String, lockKey a = lockKey b → a = b)
    ∧ (∀ b s1, m.acquire_lock s r u = .ok (b, s1) →
        s1.data (lockKey r2) = s.data (lockKey r2)
        ∧ ownerOf s1 r2 = ownerOf s r2)
    ∧ (∀ b s1, m.release_lock s r u = .ok (b, s1) →
        s1.data (lockKey r2) = s.data (lockKey r2)
        ∧ ownerOf s1 r2 = ownerOf s r2)
    ∧ (∀ ttl b s1, m.extend_lock s r u ttl = .ok (b, s1) →
        s1.data (lockKey r2) = s.data (lockKey r2)
        ∧ ownerOf s1 r2 = ownerOf s r2) := by
  have hkey : lockKey r2 ≠ lockKey r := fun hx => hne (lockKey_inj _ _ hx)
  have hwrite : ∀ e : Option RedisEntry,
      (s.write (lockKey r) e).data (lockKey r2) = s.data (lockKey r2)
      ∧ ownerOf (s.write (lockKey r) e) r2 = ownerOf s r2 := fun e =>
    ⟨RedisStore.write_data_other s _ _ e hkey,
     ownerOf_write_other s r r2 e hne⟩
  refine ⟨rfl, lockKey_inj, ?_, ?_, ?_⟩
  · intro b s1 hacq
    rw [acquire_lock_spec m s r u h] at hacq
    by_cases ho : ownerOf s r = none
    · rw [if_pos ho] at hacq
      cases hacq
      exact hwrite _
    · rw [if_neg ho] at hacq
      cases hacq
      exact ⟨rfl, rfl⟩
  · intro b s1 hrel
    rw [release_lock_spec m s r u h] at hrel
    by_cases ho : ownerOf s r = some u
    · rw [if_pos ho] at hrel
      cases hrel
      exact hwrite _
    · rw [if_neg ho] at hrel
      cases hrel
      exact ⟨rfl, rfl⟩
  · intro ttl b s1 hext
    rw [extend_lock_spec m s r u ttl h] at hext
    by_cases ho : ownerOf s r = some u
    · rw [if_pos ho] at hext
      cases hext
      exact hwrite _
    · rw [if_neg ho] at hext
      cases hext
      exact ⟨rfl, rfl⟩

theorem C10_witness :
    heldStore.available = true
    ∧ ("other" : String) ≠ "doc/1.md"
    ∧ (heldStore.write (lockKey "other")
          (some ⟨"B", (0 : Int) + 60⟩)).data (lockKey "doc/1.md") =
        heldStore.data (lockKey "doc/1.md")
    ∧ ownerOf (heldStore.write (lockKey "other")
          (some ⟨"B", (0 : Int) + 60⟩)) "doc/1.md" =
        ownerOf heldStore "doc/1.md" := by
  have h := (C10_key_isolation mkFileLockManager heldStore "other"
      "doc/1.md" "B" rfl (by decide)).2.2.1 true
      (heldStore.write (lockKey "other") (some ⟨"B", (0 : Int) + 60⟩)) rfl
  exact ⟨rfl, by decide, h.1, h.2⟩

end FileLock
